import Mathlib

/-!
Verification of the restart/dependency resolution mechanism of the
atomate2-abinit adapter layer, together with two input-set generators
(`StaticSetGenerator.on_restart` and `NonSCFSetGenerator.get_abinit_input`
from `atomate2/abinit/sets/core.py`).

The dependency resolver (`resolve_dep_exts` / `resolve_deps` of
`AbinitInputGenerator` in `atomate2/abinit/sets/base.py`) is exercised by
`tests/abinit/sets/test_base.py`; its implementation file is not part of
this tree, so the resolver is modelled from the specification, pinned on
the concrete behaviours the test suite demands.
-/

namespace AbinitDeps

/-- Modelled from the spec: a file in an `outdata` directory produced by the
external solver, named by convention `out_<EXT>` (plain) or
`out_TIM<N>_<EXT>` (timestamped, higher `N` is a later iteration).  The
implementation file `atomate2/abinit/sets/base.py` that scans these names is
not in the tree. -/
inductive OutFile where
  | plain (ext : String)
  | tim (n : Nat) (ext : String)
deriving DecidableEq, Repr

/-- The on-disk file name of an `outdata` entry. -/
def OutFile.name : OutFile → String
  | .plain e => "out_" ++ e
  | .tim n e => "out_TIM" ++ toString n ++ "_" ++ e

/-- Modelled from the spec: a prior calculation output directory, with its
path, the listing of its `outdata` subdirectory, and the recorded runlevel
tags of the calculation that produced it. -/
structure OutputDir where
  path : String
  outdata : List OutFile
  runlevel : List String
deriving DecidableEq, Repr

/-- Path of the `outdata` subdirectory of an output directory. -/
def outdataPath (d : OutputDir) : String := d.path ++ "/outdata"

/-- Absolute path of a file inside the `outdata` subdirectory. -/
def filePath (d : OutputDir) (f : OutFile) : String :=
  outdataPath d ++ "/" ++ f.name

/-- The timestamps `N` of all `out_TIM<N>_<ext>` entries for a given
extension. -/
def timNums (files : List OutFile) (ext : String) : List Nat :=
  files.filterMap fun f =>
    match f with
    | .tim n e => if e = ext then some n else none
    | .plain _ => none

/-- Maximum of a list of timestamps, `none` on the empty list. -/
def maxTim : List Nat → Option Nat
  | [] => none
  | n :: ns =>
    match maxTim ns with
    | none => some n
    | some m => some (Nat.max n m)

/-- Modelled from the spec: the per-extension core of the Extension Matcher.
Among the files of an `outdata` listing, the plain `out_<ext>` file is
preferred; otherwise the timestamped `out_TIM<N>_<ext>` file with the
largest `N` is selected; `none` when the extension has no match at all. -/
def bestMatch (files : List OutFile) (ext : String) : Option OutFile :=
  if OutFile.plain ext ∈ files then some (OutFile.plain ext)
  else
    match maxTim (timNums files ext) with
    | some n => some (OutFile.tim n ext)
    | none => none

/-- Modelled from the spec: the Extension Matcher walks the ordered list of
candidate extensions and returns the first extension that has any match,
together with its best matching file. -/
def findFirstExt (files : List OutFile) : List String → Option (String × OutFile)
  | [] => none
  | ext :: rest =>
    match bestMatch files ext with
    | some f => some (ext, f)
    | none => findFirstExt files rest

/-- Lower-casing of an extension string, character by character. -/
def toLowerStr (s : String) : String := String.mk (s.data.map Char.toLower)

/-- Joining of the attempted extensions with `" or "` for the failure
diagnostic. -/
def joinOr : List String → String
  | [] => ""
  | [e] => e
  | e :: rest => e ++ " or " ++ joinOr rest

/-- Modelled from the spec: `AbinitInputGenerator.resolve_dep_exts`.  Given a
prior output directory and an ordered list of alternative extensions, it
finds the best match via the Extension Matcher; on success it emits the
`ird<ext>` flag set to 1 and the `(source path, in_<EXT>)` link pair; on
total failure it raises an `InitializationError` naming every attempted
extension joined by `or`. -/
def resolve_dep_exts (d : OutputDir) (exts : List String) :
    Except String (List (String × Nat) × List (String × String)) :=
  match findFirstExt d.outdata exts with
  | some (ext, f) =>
      .ok ([("ird" ++ toLowerStr ext, 1)], [(filePath d f, "in_" ++ ext)])
  | none =>
      .error ("Cannot find " ++ joinOr exts ++ " file to restart from.")

/-- Splitting of a character list at every occurrence of a separator. -/
def splitOnChar (c : Char) : List Char → List (List Char)
  | [] => [[]]
  | a :: as =>
    if a = c then [] :: splitOnChar c as
    else
      match splitOnChar c as with
      | [] => [[a]]
      | g :: gs => (a :: g) :: gs

/-- Splitting of a string at every occurrence of a separator character. -/
def splitStr (c : Char) (s : String) : List String :=
  (splitOnChar c s.data).map String.mk

/-- A parsed dependency specification: the runlevel role tags and the
ordered alternative extensions. -/
structure DepSpec where
  roles : List String
  exts : List String
deriving DecidableEq, Repr

/-- Modelled from the spec: a dependency specification string
`"role1|role2:EXT1|EXT2"` is split at `:` into the role tags and the
extension alternatives, each further split at `|`. -/
def parseDep (dep : String) : DepSpec :=
  match splitStr ':' dep with
  | [r, e] => ⟨splitStr '|' r, splitStr '|' e⟩
  | _ => ⟨[], []⟩

/-- Whether an output directory's recorded runlevel matches one of the role
tags of a dependency specification. -/
def roleMatches (roles : List String) (d : OutputDir) : Bool :=
  roles.any fun r => d.runlevel.contains r

/-- Modelled from the spec: candidate-directory selection of the
Multi-Dependency Resolver.  With role filtering disabled, or for the `any`
role, every prior directory is a candidate.  Otherwise the directories are
restricted to those whose recorded runlevel matches a role tag, and it is an
`InitializationError` when zero or more than one directory matches. -/
def candidateDirs (dirs : List OutputDir) (roles : List String)
    (checkRunlevel : Bool) : Except String (List OutputDir) :=
  if checkRunlevel = false ∨ roles = ["any"] then .ok dirs
  else
    match dirs.filter (fun d => roleMatches roles d) with
    | [d] => .ok [d]
    | [] => .error "Cannot find a directory with a matching runlevel to restart from."
    | _ => .error "Found several directories with a matching runlevel to restart from."

/-- Modelled from the spec: resolution of one extension group against every
candidate directory in order, accumulating the flags and link pairs of each
directory (as pinned by `test_resolve_deps`); a failure in any directory
propagates. -/
def accumDirs (exts : List String) :
    List OutputDir → Except String (List (String × Nat) × List (String × String))
  | [] => .ok ([], [])
  | d :: rest =>
    match resolve_dep_exts d exts with
    | .error e => .error e
    | .ok (iv, fs) =>
      match accumDirs exts rest with
      | .error e => .error e
      | .ok (ivr, fsr) => .ok (iv ++ ivr, fs ++ fsr)

/-- Modelled from the spec: `AbinitInputGenerator.resolve_deps`.  Each
dependency specification is parsed, the candidate directories are selected
(respecting the role filter), every candidate directory is resolved via
`resolve_dep_exts`, and the flags and link pairs of all specifications are
aggregated in order. -/
def resolve_deps (dirs : List OutputDir) (deps : List String)
    (checkRunlevel : Bool) :
    Except String (List (String × Nat) × List (String × String)) :=
  match deps with
  | [] => .ok ([], [])
  | dep :: rest =>
    match candidateDirs dirs (parseDep dep).roles checkRunlevel with
    | .error e => .error e
    | .ok cands =>
      match accumDirs (parseDep dep).exts cands with
      | .error e => .error e
      | .ok (iv, fs) =>
        match resolve_deps dirs rest checkRunlevel with
        | .error e => .error e
        | .ok (ivr, fsr) => .ok (iv ++ ivr, fs ++ fsr)

/-- The filesystem state seen by the resolver: the tree of prior output
directories.  Used to make the read-only discipline of the resolver
explicit by threading the state through every directory access. -/
def FS := List OutputDir

/-- Look up an output directory by path in the filesystem state; an unknown
path reads as an empty directory. -/
def lookupDir (fs : FS) (p : String) : OutputDir :=
  (fs.find? fun d => d.path = p).getD ⟨p, [], []⟩

/-- Stateful read of one directory: returns the directory and the
(unchanged) filesystem state, the only filesystem primitive the resolver
uses. -/
def readDir (fs : FS) (p : String) : OutputDir × FS :=
  (lookupDir fs p, fs)

/-- Stateful read of a list of directories. -/
def readDirs (fs : FS) : List String → List OutputDir × FS
  | [] => ([], fs)
  | p :: ps =>
    let (d, fs1) := readDir fs p
    let (ds, fs2) := readDirs fs1 ps
    (d :: ds, fs2)

/-- Stateful form of `resolve_dep_exts`: reads the directory listing from
the filesystem state and resolves against it. -/
def resolve_dep_extsFS (fs : FS) (p : String) (exts : List String) :
    Except String (List (String × Nat) × List (String × String)) × FS :=
  let (d, fs1) := readDir fs p
  (resolve_dep_exts d exts, fs1)

/-- Stateful form of `candidateDirs`, reading the runlevels of the
candidate directories from the filesystem state. -/
def candidateDirsFS (fs : FS) (paths : List String) (roles : List String)
    (checkRunlevel : Bool) : Except String (List String) × FS :=
  if checkRunlevel = false ∨ roles = ["any"] then (.ok paths, fs)
  else
    let (ds, fs1) := readDirs fs paths
    (match ds.filter (fun d => roleMatches roles d) with
     | [d] => .ok [d.path]
     | [] => .error "Cannot find a directory with a matching runlevel to restart from."
     | _ => .error "Found several directories with a matching runlevel to restart from.",
     fs1)

/-- Stateful form of `accumDirs`. -/
def accumDirsFS (exts : List String) (fs : FS) :
    List String → Except String (List (String × Nat) × List (String × String)) × FS
  | [] => (.ok ([], []), fs)
  | p :: ps =>
    let (r, fs1) := resolve_dep_extsFS fs p exts
    match r with
    | .error e => (.error e, fs1)
    | .ok (iv, ifs) =>
      let (r2, fs2) := accumDirsFS exts fs1 ps
      match r2 with
      | .error e => (.error e, fs2)
      | .ok (ivr, fsr) => (.ok (iv ++ ivr, ifs ++ fsr), fs2)

/-- Stateful form of `resolve_deps`, threading the filesystem state through
every directory access. -/
def resolve_depsFS (fs : FS) (paths : List String) (deps : List String)
    (checkRunlevel : Bool) :
    Except String (List (String × Nat) × List (String × String)) × FS :=
  match deps with
  | [] => (.ok ([], []), fs)
  | dep :: rest =>
    let sp := parseDep dep
    let (c, fs1) := candidateDirsFS fs paths sp.roles checkRunlevel
    match c with
    | .error e => (.error e, fs1)
    | .ok cpaths =>
      let (r, fs2) := accumDirsFS sp.exts fs1 cpaths
      match r with
      | .error e => (.error e, fs2)
      | .ok (iv, ifs) =>
        let (r2, fs3) := resolve_depsFS fs2 paths rest checkRunlevel
        match r2 with
        | .error e => (.error e, fs3)
        | .ok (ivr, fsr) => (.ok (iv ++ ivr, ifs ++ fsr), fs3)

end AbinitDeps

namespace AbinitCore

/-- The variables of an `AbinitInput`, as an association list from variable
names to values (`abipy`'s `AbinitInput` behaves as a mutable mapping). -/
abbrev AbinitVars := List (String × Int)

/-- Lookup of a variable in an `AbinitInput`. -/
def lookupVar : AbinitVars → String → Option Int
  | [], _ => none
  | kv :: rest, k => if kv.1 = k then some kv.2 else lookupVar rest k

/-- `abipy`'s `AbinitInput.pop_vars`: removes the listed variables from the
input, silently skipping the ones that are absent. -/
def pop_vars : AbinitVars → List String → AbinitVars
  | [], _ => []
  | kv :: rest, keys =>
    if kv.1 ∈ keys then pop_vars rest keys else kv :: pop_vars rest keys

/-- `StaticSetGenerator.on_restart` (`atomate2/abinit/sets/core.py`):
removes the relaxation-like variables `ionmov`, `optcell` and `ntime` from
the `AbinitInput`. -/
def StaticSetGenerator.on_restart (abinit_input : AbinitVars) : AbinitVars :=
  pop_vars abinit_input ["ionmov", "optcell", "ntime"]

/-- `NonSCFSetGenerator.get_abinit_input` (`atomate2/abinit/sets/core.py`),
up to its previous-output guards: with no previous outputs, or with a
number of previous outputs different from one, it raises a `RuntimeError`;
otherwise it builds the non-SCF input from the single previous output (the
construction itself delegates to the external `abipy` factories,
abstracted here as `build`). -/
def NonSCFSetGenerator.get_abinit_input {α : Type}
    (prev_outputs : Option (List String)) (build : String → α) :
    Except String α :=
  match prev_outputs with
  | none => .error "No previous_outputs. Cannot perform non-SCF calculation."
  | some l =>
    if l.length ≠ 1 then
      .error "Should have exactly one previous output (an SCF calculation)."
    else
      .ok (build (l.headD ""))

end AbinitCore

namespace AbinitDeps

theorem maxTim_eq_none {l : List Nat} (h : maxTim l = none) : l = [] := by
  cases l with
  | nil => rfl
  | cons n ns => cases hns : maxTim ns <;> simp [maxTim, hns] at h

theorem maxTim_mem {l : List Nat} {m : Nat} (h : maxTim l = some m) : m ∈ l := by
  induction l generalizing m with
  | nil => simp [maxTim] at h
  | cons n ns ih =>
    cases hns : maxTim ns with
    | none =>
      simp [maxTim, hns] at h
      subst h
      exact List.mem_cons_self _ _
    | some m' =>
      simp [maxTim, hns] at h
      subst h
      have hmem' := ih hns
      rcases Nat.le_total n m' with hle | hle
      · have heq : Nat.max n m' = m' := Nat.max_eq_right hle
        rw [heq]
        exact List.mem_cons_of_mem _ hmem'
      · have heq : Nat.max n m' = n := Nat.max_eq_left hle
        rw [heq]
        exact List.mem_cons_self _ _

theorem maxTim_le {l : List Nat} {m : Nat} (h : maxTim l = some m) :
    ∀ k ∈ l, k ≤ m := by
  induction l generalizing m with
  | nil => simp [maxTim] at h
  | cons n ns ih =>
    cases hns : maxTim ns with
    | none =>
      have hnil := maxTim_eq_none hns
      subst hnil
      simp [maxTim] at h
      subst h
      intro k hk
      simp at hk
      omega
    | some m' =>
      simp [maxTim, hns] at h
      subst h
      intro k hk
      rcases List.mem_cons.mp hk with rfl | hk'
      · exact Nat.le_max_left _ _
      · exact Nat.le_trans (ih hns k hk') (Nat.le_max_right _ _)

theorem maxTim_eq_of (l : List Nat) (m : Nat) (hm : m ∈ l)
    (hub : ∀ k ∈ l, k ≤ m) : maxTim l = some m := by
  cases hmx : maxTim l with
  | none =>
    rw [maxTim_eq_none hmx] at hm
    simp at hm
  | some m' =>
    have h1 : m' ∈ l := maxTim_mem hmx
    have h2 : m ≤ m' := maxTim_le hmx m hm
    have h3 : m' ≤ m := hub m' h1
    exact congrArg some (Nat.le_antisymm h3 h2)

theorem findFirstExt_eq_some {files : List OutFile} {exts : List String}
    {ext : String} {f : OutFile}
    (h : findFirstExt files exts = some (ext, f)) :
    ext ∈ exts ∧ bestMatch files ext = some f := by
  induction exts with
  | nil => simp [findFirstExt] at h
  | cons e rest ih =>
    cases hb : bestMatch files e with
    | some g =>
      unfold findFirstExt at h
      rw [hb] at h
      simp at h
      obtain ⟨he, hg⟩ := h
      subst he
      subst hg
      exact ⟨List.mem_cons_self _ _, hb⟩
    | none =>
      unfold findFirstExt at h
      rw [hb] at h
      obtain ⟨h1, h2⟩ := ih h
      exact ⟨List.mem_cons_of_mem _ h1, h2⟩

theorem findFirstExt_eq_none_of {files : List OutFile} {exts : List String}
    (h : ∀ e ∈ exts, bestMatch files e = none) :
    findFirstExt files exts = none := by
  induction exts with
  | nil => rfl
  | cons e rest ih =>
    have he := h e (List.mem_cons_self _ _)
    unfold findFirstExt
    rw [he]
    exact ih fun x hx => h x (List.mem_cons_of_mem _ hx)

theorem findFirstExt_append {files : List OutFile} {pre exts : List String}
    (h : ∀ e ∈ pre, bestMatch files e = none) :
    findFirstExt files (pre ++ exts) = findFirstExt files exts := by
  induction pre with
  | nil => rfl
  | cons e rest ih =>
    have he := h e (List.mem_cons_self _ _)
    have hstep : findFirstExt files (e :: (rest ++ exts)) =
        findFirstExt files (rest ++ exts) := by
      show (match bestMatch files e with
        | some f => some (e, f)
        | none => findFirstExt files (rest ++ exts)) =
          findFirstExt files (rest ++ exts)
      rw [he]
    rw [List.cons_append, hstep]
    exact ih fun x hx => h x (List.mem_cons_of_mem _ hx)

/-- Claim C1: when the Extension Matcher resolves an extension against an
`outdata` listing, a plain `out_<EXT>` file is selected whenever it exists,
even if timestamped `out_TIM<N>_<EXT>` files also exist; when only
timestamped files exist, the one with the maximum `N` is selected. -/
theorem matcher_plain_wins_else_max_tim (files : List OutFile) (ext : String) :
    (OutFile.plain ext ∈ files →
      bestMatch files ext = some (OutFile.plain ext)) ∧
    (OutFile.plain ext ∉ files →
      ∀ m, m ∈ timNums files ext → (∀ k ∈ timNums files ext, k ≤ m) →
        bestMatch files ext = some (OutFile.tim m ext)) := by
  constructor
  · intro h
    simp [bestMatch, h]
  · intro h m hm hub
    have hmx := maxTim_eq_of _ _ hm hub
    simp [bestMatch, h, hmx]

theorem matcher_plain_wins_else_max_tim_witness :
    bestMatch [OutFile.plain "DEN", OutFile.tim 15 "DEN"] "DEN" =
        some (OutFile.plain "DEN") ∧
    bestMatch [OutFile.tim 1 "DEN", OutFile.tim 2 "DEN", OutFile.tim 15 "DEN"]
        "DEN" = some (OutFile.tim 15 "DEN") :=
  ⟨(matcher_plain_wins_else_max_tim _ "DEN").1 (by decide),
   (matcher_plain_wins_else_max_tim _ "DEN").2 (by decide) 15 (by decide)
     (by decide)⟩

/-- Claim C2: `resolve_dep_exts` selects the first extension of the ordered
list that has any matching file in `outdata`, even when a later extension
also has a match. -/
theorem first_matching_ext_wins (d : OutputDir) (pre : List String)
    (ext : String) (rest : List String) (f : OutFile)
    (hpre : ∀ e ∈ pre, bestMatch d.outdata e = none)
    (h : bestMatch d.outdata ext = some f) :
    resolve_dep_exts d (pre ++ ext :: rest) =
      .ok ([("ird" ++ toLowerStr ext, 1)], [(filePath d f, "in_" ++ ext)]) := by
  unfold resolve_dep_exts
  rw [findFirstExt_append hpre]
  unfold findFirstExt
  rw [h]

theorem first_matching_ext_wins_witness :
    resolve_dep_exts ⟨"/prev", [OutFile.plain "WFK", OutFile.plain "DEN"], []⟩
        (["DDB"] ++ "WFK" :: ["DEN"]) =
      .ok ([("irdwfk", 1)], [("/prev/outdata/out_WFK", "in_WFK")]) :=
  first_matching_ext_wins
    ⟨"/prev", [OutFile.plain "WFK", OutFile.plain "DEN"], []⟩
    ["DDB"] "WFK" ["DEN"] (OutFile.plain "WFK") (by decide) (by decide)

/-- Claim C3: whenever `resolve_dep_exts` succeeds, it returns exactly the
flag mapping `ird<ext lower-cased> = 1` for the matched extension together
with the single link pair (absolute path of the matched file, `in_<EXT>`). -/
theorem resolve_success_shape (d : OutputDir) (exts : List String)
    (iv : List (String × Nat)) (links : List (String × String))
    (h : resolve_dep_exts d exts = .ok (iv, links)) :
    ∃ ext f, ext ∈ exts ∧ bestMatch d.outdata ext = some f ∧
      iv = [("ird" ++ toLowerStr ext, 1)] ∧
      links = [(filePath d f, "in_" ++ ext)] := by
  unfold resolve_dep_exts at h
  cases hf : findFirstExt d.outdata exts with
  | none =>
    rw [hf] at h
    cases h
  | some p =>
    obtain ⟨ext, f⟩ := p
    rw [hf] at h
    obtain ⟨hmem, hbm⟩ := findFirstExt_eq_some hf
    simp only [Except.ok.injEq, Prod.mk.injEq] at h
    exact ⟨ext, f, hmem, hbm, h.1.symm, h.2.symm⟩

theorem resolve_success_shape_witness :
    ∃ ext f, ext ∈ ["WFK", "DEN"] ∧
      bestMatch [OutFile.plain "DEN"] ext = some f ∧
      [("irdden", 1)] = [("ird" ++ toLowerStr ext, 1)] ∧
      [(("/prev/outdata/out_DEN" : String), ("in_DEN" : String))] =
        [(filePath ⟨"/prev", [OutFile.plain "DEN"], []⟩ f, "in_" ++ ext)] :=
  resolve_success_shape ⟨"/prev", [OutFile.plain "DEN"], []⟩ ["WFK", "DEN"]
    [("irdden", 1)] [("/prev/outdata/out_DEN", "in_DEN")] rfl

/-- Claim C4: when no extension of a non-empty list has a matching file in
`outdata`, `resolve_dep_exts` fails with an initialization error whose
message names every attempted extension joined by `or`; the failure is
returned to the caller, never silently skipped. -/
theorem resolve_failure_names_exts (d : OutputDir) (exts : List String)
    ( _hne : exts ≠ [])
    (h : ∀ e ∈ exts, bestMatch d.outdata e = none) :
    resolve_dep_exts d exts =
      .error ("Cannot find " ++ joinOr exts ++ " file to restart from.") := by
  unfold resolve_dep_exts
  rw [findFirstExt_eq_none_of h]

theorem resolve_failure_names_exts_witness :
    (["DDB", "DVDB", "DKK"] : List String) ≠ [] ∧
    resolve_dep_exts ⟨"/prev", [OutFile.plain "WFK"], []⟩
        ["DDB", "DVDB", "DKK"] =
      .error "Cannot find DDB or DVDB or DKK file to restart from." :=
  ⟨by decide,
   resolve_failure_names_exts ⟨"/prev", [OutFile.plain "WFK"], []⟩
     ["DDB", "DVDB", "DKK"] (by decide) (by decide)⟩

/-- Claim C5: resolving `["any:WFK|DEN"]` against two prior output
directories, one holding only `out_DEN` and the other only `out_WFK`, with
role filtering disabled, yields the combined flags `irdden = 1` and
`irdwfk = 1` and exactly the two link pairs, independently of the order of
the directories (the two orders give permutations of each other). -/
theorem resolve_deps_any_two_dirs :
    resolve_deps [⟨"/prev1", [OutFile.plain "DEN"], []⟩,
        ⟨"/prev2", [OutFile.plain "WFK"], []⟩] ["any:WFK|DEN"] false =
      .ok ([("irdden", 1), ("irdwfk", 1)],
        [("/prev1/outdata/out_DEN", "in_DEN"),
         ("/prev2/outdata/out_WFK", "in_WFK")]) ∧
    resolve_deps [⟨"/prev2", [OutFile.plain "WFK"], []⟩,
        ⟨"/prev1", [OutFile.plain "DEN"], []⟩] ["any:WFK|DEN"] false =
      .ok ([("irdwfk", 1), ("irdden", 1)],
        [("/prev2/outdata/out_WFK", "in_WFK"),
         ("/prev1/outdata/out_DEN", "in_DEN")]) ∧
    ([("irdden", 1), ("irdwfk", 1)] : List (String × Nat)).Perm
      [("irdwfk", 1), ("irdden", 1)] ∧
    ([("/prev1/outdata/out_DEN", "in_DEN"),
      ("/prev2/outdata/out_WFK", "in_WFK")] : List (String × String)).Perm
      [("/prev2/outdata/out_WFK", "in_WFK"),
       ("/prev1/outdata/out_DEN", "in_DEN")] :=
  ⟨rfl, rfl, List.Perm.swap _ _ _, List.Perm.swap _ _ _⟩

theorem accumDirs_contrib {exts : List String} {dirs : List OutputDir}
    {d : OutputDir} (hd : d ∈ dirs) {iv : List (String × Nat)}
    {fs : List (String × String)} {IV : List (String × Nat)}
    {FS : List (String × String)}
    (hres : resolve_dep_exts d exts = .ok (iv, fs))
    (hacc : accumDirs exts dirs = .ok (IV, FS)) :
    (∀ x ∈ iv, x ∈ IV) ∧ (∀ x ∈ fs, x ∈ FS) := by
  induction dirs generalizing IV FS with
  | nil => simp at hd
  | cons a rest ih =>
    unfold accumDirs at hacc
    rcases List.mem_cons.mp hd with rfl | hmem
    · rw [hres] at hacc
      cases hrest : accumDirs exts rest with
      | error e =>
        rw [hrest] at hacc
        cases hacc
      | ok p =>
        obtain ⟨ivr, fsr⟩ := p
        rw [hrest] at hacc
        simp only [Except.ok.injEq, Prod.mk.injEq] at hacc
        obtain ⟨h1, h2⟩ := hacc
        subst h1
        subst h2
        exact ⟨fun x hx => List.mem_append_left _ hx,
          fun x hx => List.mem_append_left _ hx⟩
    · cases ha : resolve_dep_exts a exts with
      | error e =>
        rw [ha] at hacc
        cases hacc
      | ok p =>
        obtain ⟨iva, fsa⟩ := p
        rw [ha] at hacc
        cases hrest : accumDirs exts rest with
        | error e =>
          rw [hrest] at hacc
          cases hacc
        | ok q =>
          obtain ⟨ivr, fsr⟩ := q
          rw [hrest] at hacc
          simp only [Except.ok.injEq, Prod.mk.injEq] at hacc
          obtain ⟨h1, h2⟩ := hacc
          subst h1
          subst h2
          obtain ⟨hiv, hfs⟩ := ih hmem hrest
          exact ⟨fun x hx => List.mem_append_right _ (hiv x hx),
            fun x hx => List.mem_append_right _ (hfs x hx)⟩

theorem any_role_first_wins_counterexample :
    resolve_deps [⟨"/a", [OutFile.plain "WFK"], []⟩,
        ⟨"/b", [OutFile.plain "DEN"], []⟩] ["any:WFK|DEN"] false =
      .ok ([("irdwfk", 1), ("irdden", 1)],
        [("/a/outdata/out_WFK", "in_WFK"), ("/b/outdata/out_DEN", "in_DEN")]) ∧
    ¬ ∀ iv fs, resolve_deps [⟨"/a", [OutFile.plain "WFK"], []⟩,
        ⟨"/b", [OutFile.plain "DEN"], []⟩] ["any:WFK|DEN"] false =
          .ok (iv, fs) →
      iv = [("irdwfk", 1)] ∧ fs = [("/a/outdata/out_WFK", "in_WFK")] := by
  refine ⟨rfl, fun h => ?_⟩
  obtain ⟨h1, h2⟩ := h _ _ rfl
  exact absurd h1 (by decide)

/-- Claim C6 (amended): for a dependency specification with role tag `any`
(role filtering disabled), every candidate prior output directory is tried
per extension, and every directory that has a match contributes its
resolved flag and link pair to the combined result (not only the first
matching directory). -/
theorem any_role_all_dirs_contribute (dirs : List OutputDir) (dep : String)
    (d : OutputDir) (hd : d ∈ dirs) {iv : List (String × Nat)}
    {fs : List (String × String)}
    {res : List (String × Nat) × List (String × String)}
    (hres : resolve_dep_exts d (parseDep dep).exts = .ok (iv, fs))
    (hall : resolve_deps dirs [dep] false = .ok res) :
    (∀ x ∈ iv, x ∈ res.1) ∧ (∀ x ∈ fs, x ∈ res.2) := by
  have hc : candidateDirs dirs (parseDep dep).roles false = .ok dirs := by
    unfold candidateDirs
    simp
  cases hacc : accumDirs (parseDep dep).exts dirs with
  | error e =>
    have hval : resolve_deps dirs [dep] false = .error e := by
      unfold resolve_deps
      simp only [hc, hacc]
    rw [hval] at hall
    cases hall
  | ok p =>
    obtain ⟨IV, FS⟩ := p
    have hval : resolve_deps dirs [dep] false = .ok (IV, FS) := by
      unfold resolve_deps
      simp only [hc, hacc]
      rw [show resolve_deps dirs ([] : List String) false = .ok ([], [])
        from rfl]
      simp
    rw [hval] at hall
    simp only [Except.ok.injEq] at hall
    subst hall
    exact accumDirs_contrib hd hres hacc

theorem any_role_all_dirs_contribute_witness :
    (∀ x ∈ [(("irdden" : String), (1 : Nat))],
      x ∈ [(("irdwfk" : String), (1 : Nat)), ("irdden", 1)]) ∧
    (∀ x ∈ [(("/b/outdata/out_DEN" : String), ("in_DEN" : String))],
      x ∈ [(("/a/outdata/out_WFK" : String), ("in_WFK" : String)),
        ("/b/outdata/out_DEN", "in_DEN")]) :=
  @any_role_all_dirs_contribute
    [⟨"/a", [OutFile.plain "WFK"], []⟩, ⟨"/b", [OutFile.plain "DEN"], []⟩]
    "any:WFK|DEN" ⟨"/b", [OutFile.plain "DEN"], []⟩ (by decide)
    [("irdden", 1)] [("/b/outdata/out_DEN", "in_DEN")]
    ([("irdwfk", 1), ("irdden", 1)],
      [("/a/outdata/out_WFK", "in_WFK"), ("/b/outdata/out_DEN", "in_DEN")])
    rfl rfl

/-- Claim C7: with role filtering enabled and a role tag other than `any`,
the Multi-Dependency Resolver restricts candidate directories to those
whose recorded runlevel matches the role tag; it fails with an
initialization error when zero directories match and when more than one
directory matches, and with exactly one match it resolves against that
directory alone. -/
theorem role_filtering_unique_match (dirs : List OutputDir) (dep : String)
    (hne : (parseDep dep).roles ≠ ["any"]) :
    ((dirs.filter fun d => roleMatches (parseDep dep).roles d) = [] →
      ∃ e, resolve_deps dirs [dep] true = .error e) ∧
    (2 ≤ (dirs.filter fun d => roleMatches (parseDep dep).roles d).length →
      ∃ e, resolve_deps dirs [dep] true = .error e) ∧
    (∀ d, (dirs.filter fun d => roleMatches (parseDep dep).roles d) = [d] →
      resolve_deps dirs [dep] true = resolve_deps [d] [dep] true) := by
  have hcond : ¬((true = false) ∨ (parseDep dep).roles = ["any"]) := by
    simp [hne]
  refine ⟨?_, ?_, ?_⟩
  · intro hf
    refine ⟨"Cannot find a directory with a matching runlevel to restart from.", ?_⟩
    have hc : candidateDirs dirs (parseDep dep).roles true =
        .error "Cannot find a directory with a matching runlevel to restart from." := by
      unfold candidateDirs
      rw [if_neg hcond, hf]
    unfold resolve_deps
    rw [hc]
  · intro hlen
    refine ⟨"Found several directories with a matching runlevel to restart from.", ?_⟩
    have hc : candidateDirs dirs (parseDep dep).roles true =
        .error "Found several directories with a matching runlevel to restart from." := by
      unfold candidateDirs
      rw [if_neg hcond]
      cases hf : dirs.filter fun d => roleMatches (parseDep dep).roles d with
      | nil =>
        rw [hf] at hlen
        simp at hlen
      | cons a tl =>
        cases tl with
        | nil =>
          rw [hf] at hlen
          simp at hlen
        | cons b tl2 => rfl
    unfold resolve_deps
    rw [hc]
  · intro d hf
    have hdmem : d ∈ dirs.filter fun x => roleMatches (parseDep dep).roles x := by
      rw [hf]
      exact List.mem_cons_self _ _
    have hpd : roleMatches (parseDep dep).roles d = true :=
      (List.mem_filter.mp hdmem).2
    have hc1 : candidateDirs dirs (parseDep dep).roles true = .ok [d] := by
      unfold candidateDirs
      rw [if_neg hcond, hf]
    have hc2 : candidateDirs [d] (parseDep dep).roles true = .ok [d] := by
      unfold candidateDirs
      rw [if_neg hcond]
      simp [List.filter, hpd]
    unfold resolve_deps
    rw [hc1, hc2]
    simp only [show resolve_deps dirs ([] : List String) true = .ok ([], [])
        from rfl,
      show resolve_deps [d] ([] : List String) true = .ok ([], []) from rfl]

theorem role_filtering_unique_match_witness :
    (∃ e, resolve_deps [⟨"/a", [OutFile.plain "DEN"], ["scf"]⟩,
        ⟨"/b", [OutFile.plain "DEN"], ["scf"]⟩] ["scf:DEN"] true =
      .error e) ∧
    (∃ e, resolve_deps [⟨"/c", [OutFile.plain "DEN"], ["nscf"]⟩]
        ["scf:DEN"] true = .error e) :=
  ⟨(role_filtering_unique_match
      [⟨"/a", [OutFile.plain "DEN"], ["scf"]⟩,
       ⟨"/b", [OutFile.plain "DEN"], ["scf"]⟩] "scf:DEN" (by decide)).2.1
      (by decide),
   (role_filtering_unique_match [⟨"/c", [OutFile.plain "DEN"], ["nscf"]⟩]
      "scf:DEN" (by decide)).1 (by decide)⟩

theorem readDirs_state (fs : FS) (ps : List String) :
    (readDirs fs ps).2 = fs := by
  induction ps with
  | nil => rfl
  | cons p ps ih => simp [readDirs, readDir, ih]

theorem accumDirsFS_state (exts : List String) (fs : FS) (ps : List String) :
    (accumDirsFS exts fs ps).2 = fs := by
  induction ps generalizing fs with
  | nil => rfl
  | cons p ps ih =>
    unfold accumDirsFS
    simp only [resolve_dep_extsFS, readDir]
    cases resolve_dep_exts (lookupDir fs p) exts with
    | error e => rfl
    | ok q =>
      obtain ⟨iv, ifs⟩ := q
      have h := ih fs
      cases hq : accumDirsFS exts fs ps with
      | mk r2 fs2 =>
        rw [hq] at h
        cases r2 with
        | error e => simpa using h
        | ok w =>
          obtain ⟨ivr, fsr⟩ := w
          simpa using h

theorem candidateDirsFS_state (fs : FS) (paths roles : List String)
    (cr : Bool) : (candidateDirsFS fs paths roles cr).2 = fs := by
  unfold candidateDirsFS
  split
  · rfl
  · have h := readDirs_state fs paths
    cases hr : readDirs fs paths with
    | mk ds fs1 =>
      rw [hr] at h
      simpa using h

theorem resolve_depsFS_state (fs : FS) (paths deps : List String)
    (cr : Bool) : (resolve_depsFS fs paths deps cr).2 = fs := by
  induction deps generalizing fs with
  | nil => rfl
  | cons dep rest ih =>
    unfold resolve_depsFS
    simp only [candidateDirsFS_state, accumDirsFS_state, ih]
    split
    · rfl
    · split
      · rfl
      · split
        · rfl
        · rfl

/-- Claim C8: dependency resolution is deterministic and read-only: the
stateful forms of `resolve_dep_exts` and `resolve_deps` leave the
filesystem state unchanged, and a second invocation on the state left by
the first returns the same result as the first. -/
theorem resolver_readonly_deterministic (fs : FS) (p : String)
    (exts paths deps : List String) (cr : Bool) :
    (resolve_dep_extsFS fs p exts).2 = fs ∧
    (resolve_depsFS fs paths deps cr).2 = fs ∧
    (resolve_dep_extsFS ((resolve_dep_extsFS fs p exts).2) p exts).1 =
      (resolve_dep_extsFS fs p exts).1 ∧
    (resolve_depsFS ((resolve_depsFS fs paths deps cr).2) paths deps cr).1 =
      (resolve_depsFS fs paths deps cr).1 := by
  refine ⟨rfl, resolve_depsFS_state fs paths deps cr, rfl, ?_⟩
  rw [resolve_depsFS_state fs paths deps cr]

end AbinitDeps

namespace AbinitCore

theorem lookupVar_pop_vars (vars : AbinitVars) (keys : List String)
    (k : String) :
    lookupVar (pop_vars vars keys) k =
      if k ∈ keys then none else lookupVar vars k := by
  induction vars with
  | nil => simp [pop_vars, lookupVar]
  | cons kv rest ih =>
    by_cases hk : kv.1 ∈ keys
    · by_cases hkv : kv.1 = k
      · subst hkv
        simp [pop_vars, lookupVar, hk, ih]
      · simp [pop_vars, lookupVar, hk, hkv, ih]
    · by_cases hkv : kv.1 = k
      · subst hkv
        simp [pop_vars, lookupVar, hk]
      · simp [pop_vars, lookupVar, hk, hkv, ih]

/-- Claim C9: `StaticSetGenerator.on_restart` removes exactly the variables
`ionmov`, `optcell` and `ntime` from the `AbinitInput`, and every other
variable of the input is left unchanged. -/
theorem static_on_restart_removes_exactly (vars : AbinitVars) :
    lookupVar (StaticSetGenerator.on_restart vars) "ionmov" = none ∧
    lookupVar (StaticSetGenerator.on_restart vars) "optcell" = none ∧
    lookupVar (StaticSetGenerator.on_restart vars) "ntime" = none ∧
    ∀ k, k ∉ (["ionmov", "optcell", "ntime"] : List String) →
      lookupVar (StaticSetGenerator.on_restart vars) k = lookupVar vars k := by
  refine ⟨?_, ?_, ?_, fun k hk => ?_⟩
  · rw [show StaticSetGenerator.on_restart vars =
      pop_vars vars ["ionmov", "optcell", "ntime"] from rfl, lookupVar_pop_vars]
    simp
  · rw [show StaticSetGenerator.on_restart vars =
      pop_vars vars ["ionmov", "optcell", "ntime"] from rfl, lookupVar_pop_vars]
    simp
  · rw [show StaticSetGenerator.on_restart vars =
      pop_vars vars ["ionmov", "optcell", "ntime"] from rfl, lookupVar_pop_vars]
    simp
  · rw [show StaticSetGenerator.on_restart vars =
      pop_vars vars ["ionmov", "optcell", "ntime"] from rfl, lookupVar_pop_vars,
      if_neg hk]

theorem static_on_restart_removes_exactly_witness :
    lookupVar (StaticSetGenerator.on_restart
      [("ionmov", 3), ("ecut", 5)]) "ionmov" = none ∧
    lookupVar (StaticSetGenerator.on_restart
      [("ionmov", 3), ("ecut", 5)]) "ecut" =
      lookupVar [("ionmov", 3), ("ecut", 5)] "ecut" :=
  ⟨(static_on_restart_removes_exactly [("ionmov", 3), ("ecut", 5)]).1,
   (static_on_restart_removes_exactly [("ionmov", 3), ("ecut", 5)]).2.2.2
     "ecut" (by decide)⟩

/-- Claim C10: `NonSCFSetGenerator.get_abinit_input` raises a `RuntimeError`
whenever `prev_outputs` is `None`, and whenever it holds a number of entries
different from one; it proceeds to build an input exactly when given one
previous output. -/
theorem nonscf_prev_outputs_guard {α : Type} (build : String → α) :
    (NonSCFSetGenerator.get_abinit_input none build =
      .error "No previous_outputs. Cannot perform non-SCF calculation.") ∧
    (∀ l : List String, l.length ≠ 1 →
      NonSCFSetGenerator.get_abinit_input (some l) build =
        .error "Should have exactly one previous output (an SCF calculation).") ∧
    (∀ x : String,
      NonSCFSetGenerator.get_abinit_input (some [x]) build = .ok (build x)) := by
  refine ⟨rfl, fun l hl => ?_, fun x => ?_⟩
  · have hstep : NonSCFSetGenerator.get_abinit_input (some l) build =
        if l.length ≠ 1 then
          (.error "Should have exactly one previous output (an SCF calculation)." :
            Except String α)
        else .ok (build (l.headD "")) := rfl
    rw [hstep, if_pos hl]
  · rfl

theorem nonscf_prev_outputs_guard_witness :
    NonSCFSetGenerator.get_abinit_input (some ["/p1", "/p2"])
        (fun s : String => s) =
      .error "Should have exactly one previous output (an SCF calculation)." ∧
    NonSCFSetGenerator.get_abinit_input (some ["/p"]) (fun s : String => s) =
      .ok "/p" ∧
    NonSCFSetGenerator.get_abinit_input none (fun s : String => s) =
      .error "No previous_outputs. Cannot perform non-SCF calculation." :=
  ⟨(nonscf_prev_outputs_guard (fun s : String => s)).2.1 ["/p1", "/p2"]
     (by decide),
   (nonscf_prev_outputs_guard (fun s : String => s)).2.2 "/p",
   (nonscf_prev_outputs_guard (fun s : String => s)).1⟩

end AbinitCore

